import Mathlib

/-!
Verification of the stream-synchronization engine of `tap_opensea`
(`src/tap_opensea/streams.py`), shallowly embedded in Lean.

Modelling conventions:
* Timestamps are `Nat`.  The code stores the running maximum as an ISO-8601
  string and re-parses it with `singer.utils.strptime_to_utc` before each
  comparison; since `strptime_to_utc ∘ isoformat` is the identity on UTC
  instants, we carry the parsed value directly.
* A JSON object (raw record, transformed record, stats object, asset) is an
  association list `Dict` with string keys; `dictSet` implements Python's
  `d[k] = v` (overwrite in place, else append) and `dictGet` implements
  `d[k]` / `d.get(k)`.
* The singer state is `SingerState`, a list of `((stream_id, key), value)`
  bookmarks; `getBookmark` and `writeBookmark` model `singer.get_bookmark`
  and `singer.write_bookmark`.
* `transformer.transform(record, schema, metadata)` is modelled by a function
  `transform : α → Except ε β` (the schema and metadata are fixed for the
  whole sync, so they are absorbed into the function); `Except.error`
  models a raised `SchemaValidationError`.
* The observable effects of a sync — records written with
  `singer.write_record`, the metrics counter, and the states written with
  `singer.write_state` — are returned explicitly (`emitted`, `counter`,
  `statesWritten`).  An `Except.error` result models the Python exception
  propagating out of `sync`; since `singer.write_state` is only called after
  the record loop, no state is written on that path.
* The HTTP client is a collaborator: for `Assets.get_records` the function
  `pages : Nat → List Dict` gives the `assets` array the client returns for
  a given `offset` (the other request parameters are constant over the
  loop), and the model additionally records the exact parameter sets sent;
  for `Stats.get_records` the stats object of the response and the value of
  `singer.utils.now()` are passed in.
-/

namespace TapOpensea

/-- A JSON object: an association list from string keys to (numeric) values. -/
abbrev Dict := List (String × Nat)

/-- Python `d[k] = v`: overwrite the first binding of `k` in place, otherwise
append `(k, v)` at the end. -/
def dictSet : Dict → String → Nat → Dict
  | [], k, v => [(k, v)]
  | (k0, v0) :: rest, k, v =>
    if k0 = k then (k, v) :: rest else (k0, v0) :: dictSet rest k v

/-- Python `d.get(k)`: the first binding of `k`, if any. -/
def dictGet : Dict → String → Option Nat
  | [], _ => none
  | (k0, v0) :: rest, k => if k0 = k then some v0 else dictGet rest k

/-- Drop every binding of `k` (used only to compare records up to a field). -/
def dictErase (k : String) : Dict → Dict
  | [] => []
  | (k0, v0) :: rest =>
    if k0 = k then dictErase k rest else (k0, v0) :: dictErase k rest

/-- Singer state: bookmarks indexed by `(tap_stream_id, replication_key)`. -/
structure SingerState where
  bookmarks : List ((String × String) × Nat)
deriving DecidableEq, Repr

/-- Model of `singer.get_bookmark(state, tap_stream_id, key, default)`. -/
def getBookmark (st : SingerState) (sid key : String) (default : Nat) : Nat :=
  match st.bookmarks.find? (fun p => decide (p.1 = (sid, key))) with
  | some p => p.2
  | none => default

/-- Model of `singer.write_bookmark(state, tap_stream_id, key, v)`. -/
def writeBookmark (st : SingerState) (sid key : String) (v : Nat) : SingerState :=
  ⟨((sid, key), v) :: st.bookmarks.filter (fun p => decide (p.1 ≠ (sid, key)))⟩

/-- Result of the record loop of `IncrementalStream.sync` (streams.py 89-96):
the records written, the metrics counter, and the final `max_record_value`. -/
structure IncOut (β : Type) where
  emitted : List β
  counter : Nat
  maxv : Nat
deriving DecidableEq, Repr

/-- The record loop of `IncrementalStream.sync` (streams.py 90-96): transform
each record, and when its replication value is `≥` the running maximum,
write it, increment the counter, and advance the maximum.  A transformation
failure aborts the loop with that error. -/
def incRun (transform : α → Except ε β) (replValue : β → Nat) :
    Nat → List α → Except ε (IncOut β)
  | m, [] => Except.ok ⟨[], 0, m⟩
  | m, r :: rs =>
    match transform r with
    | Except.error e => Except.error e
    | Except.ok t =>
      if m ≤ replValue t then
        match incRun transform replValue (replValue t) rs with
        | Except.error e => Except.error e
        | Except.ok o => Except.ok ⟨t :: o.emitted, o.counter + 1, o.maxv⟩
      else
        incRun transform replValue m rs

/-- Observable outcome of one `sync` invocation: the returned state, the
records written, the counter total, and the states passed to
`singer.write_state`. -/
structure SyncOut (β : Type) where
  retState : SingerState
  emitted : List β
  counter : Nat
  statesWritten : List SingerState
deriving DecidableEq, Repr

/-- `IncrementalStream.sync` (streams.py 86-100): read the bookmark
(defaulting to `config['start_date']`), run the record loop, then write the
final maximum back as the bookmark and write the state. -/
def IncrementalStream.sync (tap_stream_id replication_key : String)
    (start_date : Nat) (transform : α → Except ε β) (replValue : β → Nat)
    (state : SingerState) (records : List α) : Except ε (SyncOut β) :=
  let start_time := getBookmark state tap_stream_id replication_key start_date
  match incRun transform replValue start_time records with
  | Except.error e => Except.error e
  | Except.ok o =>
    let state2 := writeBookmark state tap_stream_id replication_key o.maxv
    Except.ok ⟨state2, o.emitted, o.counter, [state2]⟩

/-- The record loop of `FullTableStream.sync` (streams.py 127-130): transform
and write every record unconditionally, counting them. -/
def fullRun (transform : α → Except ε β) : List α → Except ε (List β × Nat)
  | [] => Except.ok ([], 0)
  | r :: rs =>
    match transform r with
    | Except.error e => Except.error e
    | Except.ok t =>
      match fullRun transform rs with
      | Except.error e => Except.error e
      | Except.ok (es, c) => Except.ok (t :: es, c + 1)

/-- `FullTableStream.sync` (streams.py 115-133): emit every transformed
record, then write the incoming state unchanged and return it. -/
def FullTableStream.sync (transform : α → Except ε β) (state : SingerState)
    (records : List α) : Except ε (SyncOut β) :=
  match fullRun transform records with
  | Except.error e => Except.error e
  | Except.ok (es, c) => Except.ok ⟨state, es, c, [state]⟩

/-- Parameter set sent with one page request of `Assets.get_records`
(streams.py 149-153). -/
structure ReqParams where
  asset_contract_address : String
  limit : Nat
  offset : Nat
deriving DecidableEq, Repr

/-- Loop body of `Assets.get_records` (streams.py 148-162), iterated over the
list of loop indices: for each index, send a request with `limit = 50` and
`offset` equal to the index, annotate each returned asset with that offset,
and yield the page.  Returns the yielded records and the requests sent. -/
def Assets.pageLoop (addr : String) (pages : Nat → List Dict) :
    List Nat → List Dict × List ReqParams
  | [] => ([], [])
  | off :: rest =>
    let assets := (pages off).map (fun a => dictSet a "offset" off)
    let out := Assets.pageLoop addr pages rest
    (assets ++ out.1, ⟨addr, 50, off⟩ :: out.2)

/-- `Assets.get_records` (streams.py 144-162): the records yielded by the
loop `for offest in range(10_001)`. -/
def Assets.get_records (addr : String) (pages : Nat → List Dict) : List Dict :=
  (Assets.pageLoop addr pages (List.range 10001)).1

/-- The page requests issued by `Assets.get_records`, in order. -/
def Assets.requests (addr : String) (pages : Nat → List Dict) : List ReqParams :=
  (Assets.pageLoop addr pages (List.range 10001)).2

/-- `Stats.key_properties` (streams.py 170). -/
def Stats.key_properties : List String := ["date"]

/-- `Stats.get_records` (streams.py 173-182): take the collection's stats
object from the response, set its `date` field to `singer.utils.now()`, and
yield that single record. -/
def Stats.get_records (stats : Dict) (now : Nat) : List Dict :=
  [dictSet stats "date" now]

/-- Emission sequence as worded by the spec (§4.3, steps 3-4): a record is
emitted iff its replication value is `≥` the running maximum (initialized to
`start_time`), and each emission advances the running maximum to that value.
Used to compare `IncrementalStream.sync` against the spec's wording. -/
def specEmit : Nat → List Nat → List Nat
  | _, [] => []
  | m, v :: vs => if m ≤ v then v :: specEmit v vs else specEmit m vs

/-- `IncrementalStream.sync` specialized to bare replication values: the
identity transformer never fails and the record is its replication value;
the initial state has no bookmark, so `start_time = start_date`. -/
def syncValues (start_time : Nat) (values : List Nat) :
    Except Unit (SyncOut Nat) :=
  IncrementalStream.sync "stream" "updated_at" start_time
    (fun v => Except.ok v) id ⟨[]⟩ values

/-! ### Helper lemmas -/

/-- A bookmark just written is the one read back, whatever the default. -/
theorem getBookmark_writeBookmark_same (st : SingerState) (sid key : String)
    (v d : Nat) : getBookmark (writeBookmark st sid key v) sid key d = v := by
  simp [getBookmark, writeBookmark, List.find?]

/-- Reading a bookmark from the empty state gives the default. -/
theorem getBookmark_empty (sid key : String) (d : Nat) :
    getBookmark ⟨[]⟩ sid key d = d := rfl

/-- Every value of `specEmit m vs` is at least `m`. -/
theorem specEmit_ge (vs : List Nat) : ∀ (m : Nat), ∀ x ∈ specEmit m vs, m ≤ x := by
  induction vs with
  | nil => intro m x hx; simp [specEmit] at hx
  | cons v vs ih =>
    intro m x hx
    simp only [specEmit] at hx
    by_cases h : m ≤ v
    · rw [if_pos h] at hx
      rcases List.mem_cons.mp hx with rfl | hx
      · exact h
      · exact le_trans h (ih v x hx)
    · rw [if_neg h] at hx
      exact ih m x hx

/-- The spec-worded emission sequence is non-decreasing. -/
theorem specEmit_chain (vs : List Nat) :
    ∀ (m : Nat), List.Chain' (· ≤ ·) (specEmit m vs) := by
  induction vs with
  | nil => intro m; simp [specEmit]
  | cons v vs ih =>
    intro m
    simp only [specEmit]
    by_cases h : m ≤ v
    · rw [if_pos h]
      refine List.chain'_cons'.mpr ⟨?_, ih v⟩
      intro y hy
      exact specEmit_ge vs v y (List.mem_of_mem_head? hy)
    · rw [if_neg h]
      exact ih m

/-- With the never-failing identity transformer, the incremental record loop
computes exactly the spec-worded emission sequence, counts its length, and
finishes with the maximum of the initial value and all record values. -/
theorem incRun_pure (vs : List Nat) :
    ∀ (m : Nat), incRun (fun v => (Except.ok v : Except Unit Nat)) id m vs =
      Except.ok ⟨specEmit m vs, (specEmit m vs).length, vs.foldl max m⟩ := by
  induction vs with
  | nil => intro m; rfl
  | cons v vs ih =>
    intro m
    simp only [incRun, specEmit, id, List.foldl_cons]
    by_cases h : m ≤ v
    · rw [if_pos h, if_pos h, ih v, Nat.max_eq_right h]
      simp
    · rw [if_neg h, if_neg h, ih m, Nat.max_eq_left (Nat.le_of_not_le h)]

/-- The running maximum of the incremental record loop never decreases. -/
theorem incRun_maxv_ge {α β ε : Type} (transform : α → Except ε β)
    (f : β → Nat) (rs : List α) :
    ∀ (m : Nat) (o : IncOut β), incRun transform f m rs = Except.ok o →
      m ≤ o.maxv := by
  induction rs with
  | nil =>
    intro m o h
    simp only [incRun] at h
    cases h
    exact le_refl _
  | cons r rs ih =>
    intro m o h
    simp only [incRun] at h
    cases ht : transform r with
    | error e => rw [ht] at h; cases h
    | ok t =>
      rw [ht] at h
      dsimp only at h
      by_cases hc : m ≤ f t
      · rw [if_pos hc] at h
        cases ho : incRun transform f (f t) rs with
        | error e => rw [ho] at h; cases h
        | ok o2 =>
          rw [ho] at h
          cases h
          exact le_trans hc (ih (f t) o2 ho)
      · rw [if_neg hc] at h
        exact ih m o h

/-- A transformation failure anywhere in the input list makes the incremental
record loop fail. -/
theorem incRun_error {α β ε : Type} (transform : α → Except ε β)
    (f : β → Nat) (rs : List α)
    (hrs : ∃ r ∈ rs, ∃ e, transform r = Except.error e) :
    ∀ (m : Nat), ∃ e, incRun transform f m rs = Except.error e := by
  induction rs with
  | nil => exact absurd hrs (by simp)
  | cons r rs ih =>
    intro m
    rcases hrs with ⟨r0, hr0, e0, he0⟩
    rcases List.mem_cons.mp hr0 with rfl | hmem
    · exact ⟨e0, by simp only [incRun, he0]⟩
    · cases ht : transform r with
      | error e => exact ⟨e, by simp only [incRun, ht]⟩
      | ok t =>
        have ihm := ih ⟨r0, hmem, e0, he0⟩
        by_cases hc : m ≤ f t
        · rcases ihm (f t) with ⟨e, he⟩
          exact ⟨e, by simp only [incRun, ht, if_pos hc, he]⟩
        · rcases ihm m with ⟨e, he⟩
          exact ⟨e, by simp only [incRun, ht, if_neg hc, he]⟩

/-- A transformation failure anywhere in the input list makes the full-table
record loop fail. -/
theorem fullRun_error {α β ε : Type} (transform : α → Except ε β)
    (rs : List α) (hrs : ∃ r ∈ rs, ∃ e, transform r = Except.error e) :
    ∃ e, fullRun transform rs = Except.error e := by
  induction rs with
  | nil => exact absurd hrs (by simp)
  | cons r rs ih =>
    rcases hrs with ⟨r0, hr0, e0, he0⟩
    rcases List.mem_cons.mp hr0 with rfl | hmem
    · exact ⟨e0, by simp only [fullRun, he0]⟩
    · cases ht : transform r with
      | error e => exact ⟨e, by simp only [fullRun, ht]⟩
      | ok t =>
        rcases ih ⟨r0, hmem, e0, he0⟩ with ⟨e, he⟩
        exact ⟨e, by simp only [fullRun, ht, he]⟩

/-- Reading back a key that was just set. -/
theorem dictGet_dictSet_same (r : Dict) (k : String) (v : Nat) :
    dictGet (dictSet r k v) k = some v := by
  induction r with
  | nil => simp [dictSet, dictGet]
  | cons p rest ih =>
    obtain ⟨k0, v0⟩ := p
    by_cases h : k0 = k
    · simp [dictSet, dictGet, h]
    · simp [dictSet, dictGet, h, ih]

/-- Setting a key and then erasing it is the same as erasing it directly. -/
theorem dictErase_dictSet (r : Dict) (k : String) (v : Nat) :
    dictErase k (dictSet r k v) = dictErase k r := by
  induction r with
  | nil => simp [dictSet, dictErase]
  | cons p rest ih =>
    obtain ⟨k0, v0⟩ := p
    by_cases h : k0 = k
    · simp [dictSet, dictErase, h]
    · simp [dictSet, dictErase, h, ih]

/-- The requests issued by the `Assets` pagination loop are exactly one per
loop index, with `limit = 50` and `offset` equal to the index. -/
theorem pageLoop_requests (addr : String) (pages : Nat → List Dict) :
    ∀ (offs : List Nat),
      (Assets.pageLoop addr pages offs).2 =
        offs.map (fun o => ⟨addr, 50, o⟩) := by
  intro offs
  induction offs with
  | nil => rfl
  | cons off rest ih => simp [Assets.pageLoop, ih]

/-! ### Claim theorems -/

/-- C1: `IncrementalStream.sync` emits a record (and increments the counter)
iff its replication value is `≥` the running maximum initialized to
`start_time`, advancing the maximum on each emission (`specEmit` states the
spec's wording of that rule); in particular for values `[5, 3, 7, 6]` and
`start_time = 4` exactly `[5, 7]` are emitted, in order, and the final
watermark is `7`. -/
theorem inc_sync_emits_iff_ge_running_max :
    (∀ (start_time : Nat) (values : List Nat),
      syncValues start_time values =
        Except.ok ⟨writeBookmark ⟨[]⟩ "stream" "updated_at"
            (values.foldl max start_time),
          specEmit start_time values, (specEmit start_time values).length,
          [writeBookmark ⟨[]⟩ "stream" "updated_at"
            (values.foldl max start_time)]⟩) ∧
    syncValues 4 [5, 3, 7, 6] =
      Except.ok ⟨⟨[(("stream", "updated_at"), 7)]⟩, [5, 7], 2,
        [⟨[(("stream", "updated_at"), 7)]⟩]⟩ := by
  constructor
  · intro s vs
    simp only [syncValues, IncrementalStream.sync, getBookmark_empty]
    rw [incRun_pure]
  · rfl

/-- C9: the replication values emitted by `IncrementalStream.sync` form a
non-decreasing sequence, and the persisted watermark equals the maximum of
`start_time` and all source replication values (`List.foldl max`). -/
theorem inc_sync_emitted_nondecreasing_final_max (start_time : Nat)
    (values : List Nat) (out : SyncOut Nat)
    (h : syncValues start_time values = Except.ok out) :
    List.Chain' (· ≤ ·) out.emitted ∧
    ∀ d, getBookmark out.retState "stream" "updated_at" d =
      values.foldl max start_time := by
  simp only [syncValues, IncrementalStream.sync] at h
  rw [incRun_pure] at h
  dsimp only at h
  simp only [Except.ok.injEq] at h
  subst h
  refine ⟨specEmit_chain values _, fun d => ?_⟩
  rw [getBookmark_writeBookmark_same, getBookmark_empty]

/-- C9 witness: the theorem applied to values `[5, 3, 7, 6]` and
`start_time = 4`. -/
theorem inc_sync_emitted_nondecreasing_final_max_witness :
    List.Chain' (· ≤ ·) [5, 7] ∧
    ∀ d, getBookmark (⟨[(("stream", "updated_at"), 7)]⟩ : SingerState)
      "stream" "updated_at" d = [5, 3, 7, 6].foldl max 4 :=
  inc_sync_emitted_nondecreasing_final_max 4 [5, 3, 7, 6]
    ⟨⟨[(("stream", "updated_at"), 7)]⟩, [5, 7], 2,
      [⟨[(("stream", "updated_at"), 7)]⟩]⟩ rfl

/-- C2: the watermark persisted by `IncrementalStream.sync` is `≥` the
watermark read at its start (the prior bookmark, or `config['start_date']`
when absent); chaining syncs, the stored bookmark never decreases. -/
theorem inc_sync_watermark_monotone {α β ε : Type} (sid key : String)
    (start_date : Nat) (transform : α → Except ε β) (replValue : β → Nat)
    (state : SingerState) (records : List α) (out : SyncOut β)
    (h : IncrementalStream.sync sid key start_date transform replValue state
      records = Except.ok out) :
    ∀ d, getBookmark state sid key start_date ≤
      getBookmark out.retState sid key d := by
  intro d
  simp only [IncrementalStream.sync] at h
  cases ho : incRun transform replValue
      (getBookmark state sid key start_date) records with
  | error e => rw [ho] at h; cases h
  | ok o =>
    rw [ho] at h
    dsimp only at h
    simp only [Except.ok.injEq] at h
    subst h
    dsimp only
    rw [getBookmark_writeBookmark_same]
    exact incRun_maxv_ge transform replValue records _ o ho

/-- C2 witness: the theorem applied to a sync from the empty state with
values `[5, 3, 7, 6]` and `start_date = 4`. -/
theorem inc_sync_watermark_monotone_witness :
    getBookmark (⟨[]⟩ : SingerState) "stream" "updated_at" 4 ≤
      getBookmark (⟨[(("stream", "updated_at"), 7)]⟩ : SingerState)
        "stream" "updated_at" 0 :=
  inc_sync_watermark_monotone "stream" "updated_at" 4
    (fun v => (Except.ok v : Except Unit Nat)) id ⟨[]⟩ [5, 3, 7, 6]
    ⟨⟨[(("stream", "updated_at"), 7)]⟩, [5, 7], 2,
      [⟨[(("stream", "updated_at"), 7)]⟩]⟩ rfl 0

/-- C8: on an empty source, `IncrementalStream.sync` emits nothing, counts
zero, and still writes state once, with the persisted watermark equal to
`start_time` (the prior bookmark, or `config['start_date']` when absent). -/
theorem inc_sync_empty_source {α β ε : Type} (sid key : String)
    (start_date : Nat) (transform : α → Except ε β) (replValue : β → Nat)
    (state : SingerState) :
    IncrementalStream.sync sid key start_date transform replValue state
        ([] : List α) =
      Except.ok ⟨writeBookmark state sid key
          (getBookmark state sid key start_date), [], 0,
        [writeBookmark state sid key (getBookmark state sid key start_date)]⟩ ∧
    ∀ d, getBookmark
        (writeBookmark state sid key (getBookmark state sid key start_date))
        sid key d = getBookmark state sid key start_date :=
  ⟨rfl, fun d => getBookmark_writeBookmark_same state sid key _ d⟩

/-- C3: `FullTableStream.sync` returns the incoming state unchanged and
writes exactly that state, so every bookmark (in particular those of other
streams) reads the same before and after. -/
theorem full_sync_state_passthrough {α β ε : Type} (transform : α → Except ε β)
    (state : SingerState) (records : List α) (out : SyncOut β)
    (h : FullTableStream.sync transform state records = Except.ok out) :
    out.retState = state ∧ out.statesWritten = [state] ∧
    ∀ sid key d, getBookmark out.retState sid key d =
      getBookmark state sid key d := by
  simp only [FullTableStream.sync] at h
  cases hr : fullRun transform records with
  | error e => rw [hr] at h; cases h
  | ok p =>
    obtain ⟨es, c⟩ := p
    rw [hr] at h
    dsimp only at h
    simp only [Except.ok.injEq] at h
    subst h
    exact ⟨rfl, rfl, fun sid key d => rfl⟩

/-- C3 witness: the theorem applied to a state holding another stream's
bookmark and two records. -/
theorem full_sync_state_passthrough_witness :
    SyncOut.retState (β := Nat)
        ⟨⟨[(("other", "k"), 3)]⟩, [1, 2], 2, [⟨[(("other", "k"), 3)]⟩]⟩ =
      (⟨[(("other", "k"), 3)]⟩ : SingerState) :=
  (full_sync_state_passthrough (fun v => (Except.ok v : Except Unit Nat))
    ⟨[(("other", "k"), 3)]⟩ [1, 2]
    ⟨⟨[(("other", "k"), 3)]⟩, [1, 2], 2, [⟨[(("other", "k"), 3)]⟩]⟩ rfl).1

/-- C7: a transformation failure on any record makes both
`IncrementalStream.sync` and `FullTableStream.sync` propagate the error; the
error return means the sync aborted before `singer.write_bookmark` and
`singer.write_state` (streams.py 98-99, 132), so no bookmark and no state
snapshot is written by that invocation. -/
theorem transform_error_propagates {α β ε : Type} (sid key : String)
    (start_date : Nat) (transform : α → Except ε β) (replValue : β → Nat)
    (state : SingerState) (records : List α)
    (h : ∃ r ∈ records, ∃ e, transform r = Except.error e) :
    (∃ e, IncrementalStream.sync sid key start_date transform replValue state
      records = Except.error e) ∧
    (∃ e, FullTableStream.sync transform state records = Except.error e) := by
  constructor
  · rcases incRun_error transform replValue records h
      (getBookmark state sid key start_date) with ⟨e, he⟩
    exact ⟨e, by simp only [IncrementalStream.sync, he]⟩
  · rcases fullRun_error transform records h with ⟨e, he⟩
    exact ⟨e, by simp only [FullTableStream.sync, he]⟩

/-- C7 witness: the theorem applied to a transformer that fails on the single
record `0`. -/
theorem transform_error_propagates_witness :
    IncrementalStream.sync "stream" "updated_at" 0
        (fun _ : Nat => (Except.error () : Except Unit Nat)) id ⟨[]⟩ [0] =
      Except.error () ∧
    FullTableStream.sync (fun _ : Nat => (Except.error () : Except Unit Nat))
        ⟨[]⟩ [0] = Except.error () := by
  have h := transform_error_propagates "stream" "updated_at" 0
    (fun _ : Nat => (Except.error () : Except Unit Nat)) id ⟨[]⟩ [0]
    ⟨0, by simp, (), rfl⟩
  obtain ⟨⟨e1, h1⟩, ⟨e2, h2⟩⟩ := h
  exact ⟨h1, h2⟩

/-- C10: `Stats.get_records` yields exactly one record — the collection's
stats object with its `date` field set to the extraction-time value of
`singer.utils.now()` — and `date` is the stream's key property. -/
theorem stats_get_records_single_dated :
    ∀ (stats : Dict) (now : Nat),
      Stats.get_records stats now = [dictSet stats "date" now] ∧
      (Stats.get_records stats now).length = 1 ∧
      (∀ r ∈ Stats.get_records stats now, dictGet r "date" = some now) ∧
      Stats.key_properties = ["date"] := by
  intro stats now
  refine ⟨rfl, rfl, ?_, rfl⟩
  intro r hr
  simp only [Stats.get_records, List.mem_singleton] at hr
  subst hr
  exact dictGet_dictSet_same stats "date" now

/-- C4 (amended): `Assets.get_records` never terminates on an empty page —
it always issues exactly 10,001 page requests, and the request sequence does
not depend on the pages' contents at all. -/
theorem assets_requests_always_cap :
    ∀ (addr : String) (p1 p2 : Nat → List Dict),
      (Assets.requests addr p1).length = 10001 ∧
      Assets.requests addr p1 = Assets.requests addr p2 := by
  intro addr p1 p2
  constructor
  · rw [Assets.requests, pageLoop_requests]
    simp
  · rw [Assets.requests, Assets.requests, pageLoop_requests,
      pageLoop_requests]

/-- C4 counterexample: with a source whose every page is empty (so the page
at offset `K = 0` is already empty), the claim predicts at most one request,
but the code still issues 10,001. -/
theorem assets_empty_page_does_not_stop :
    (Assets.requests "0xaddr" (fun _ => [])).length = 10001 ∧
    (10001 : Nat) ≠ 1 ∧ (10001 : Nat) ≠ 0 := by
  refine ⟨?_, by decide, by decide⟩
  rw [Assets.requests, pageLoop_requests]
  simp

/-- C5 (amended): the offset sent with the N-th page request of
`Assets.get_records` equals `N - 1` — the offset advances by 1 after each
page while the page-size `limit` stays 50, so it is not a multiple of the
page size. -/
theorem assets_request_offsets :
    ∀ (addr : String) (pages : Nat → List Dict),
      (Assets.requests addr pages).map ReqParams.offset = List.range 10001 ∧
      ∀ ps ∈ Assets.requests addr pages, ps.limit = 50 := by
  intro addr pages
  rw [Assets.requests, pageLoop_requests]
  constructor
  · rw [List.map_map]
    have h : (ReqParams.offset ∘ fun o => (⟨addr, 50, o⟩ : ReqParams)) =
        id := rfl
    rw [h, List.map_id]
  · intro ps hps
    simp only [List.mem_map] at hps
    rcases hps with ⟨o, _, rfl⟩
    rfl

/-- C5 counterexample: the second page request (N = 2) carries
`offset = 1`, not `(N - 1) * 50 = 50`. -/
theorem assets_second_request_offset :
    (Assets.requests "0xaddr" (fun _ => []))[1]? =
      some ⟨"0xaddr", 50, 1⟩ ∧
    (⟨"0xaddr", 50, 1⟩ : ReqParams).offset ≠ 50 := by
  constructor
  · rw [Assets.requests, pageLoop_requests]
    simp
  · decide

/-- C6 counterexample: `Stats.get_records` stamps the extraction time into
the record, so two full-table syncs of the stats stream against an unchanged
source but at different times emit different records — the emitted records
are not a function of the source data alone. -/
theorem stats_sync_not_record_deterministic :
    (FullTableStream.sync (fun r => (Except.ok r : Except Unit Dict)) ⟨[]⟩
        (Stats.get_records [("floor_price", 10)] 0)).toOption.map
        SyncOut.emitted ≠
      (FullTableStream.sync (fun r => (Except.ok r : Except Unit Dict)) ⟨[]⟩
        (Stats.get_records [("floor_price", 10)] 1)).toOption.map
        SyncOut.emitted := by
  decide

/-- C6 (amended): full-table emission is a deterministic function of the
transformed records alone (independent of the state passed in), and two
`Stats.get_records` runs against the same stats object agree on every field
except the extraction-time `date` stamp. -/
theorem full_sync_idempotent_modulo_date :
    (∀ (α β ε : Type) (transform : α → Except ε β) (st1 st2 : SingerState)
        (records : List α),
      (FullTableStream.sync transform st1 records).toOption.map
          SyncOut.emitted =
        (FullTableStream.sync transform st2 records).toOption.map
          SyncOut.emitted) ∧
    (∀ (stats : Dict) (t1 t2 : Nat),
      (Stats.get_records stats t1).map (dictErase "date") =
        (Stats.get_records stats t2).map (dictErase "date")) := by
  constructor
  · intro α β ε transform st1 st2 records
    simp only [FullTableStream.sync]
    cases hr : fullRun transform records with
    | error e => rfl
    | ok p =>
      obtain ⟨es, c⟩ := p
      rfl
  · intro stats t1 t2
    simp only [Stats.get_records, List.map_cons, List.map_nil]
    rw [dictErase_dictSet, dictErase_dictSet]

end TapOpensea
